import Mathlib

/-!
Verification of the file_archiver core services against their specification.

The Python sources are shallowly embedded:
* a filesystem is a function from paths to optional file contents (a `Nat`
  content token doubles as the byte size reported by `stat`), together with
  oracles telling which `stat`/`read` calls raise and which directories can
  be created (`mkdir` success);
* a path is kept in the decomposed form used by `pathlib` in the mover
  (`parent`, `stem`, `suffix`), so the collision-renaming string operations
  are exact;
* the unbounded `while` loops of `FileMover._handle_collision` are embedded
  with an explicit fuel parameter; `none` means the loop did not finish
  within the given fuel, and theorems quantify over all fuels.
-/

/-- A filesystem path in the decomposed form `parent / (stem ++ ext)` used by
`pathlib.Path` in the mover (`Path.parent`, `Path.stem`, `Path.suffix`); `ext`
carries the leading dot, as Python's `Path.suffix` does. -/
structure FsPath where
  dir : String
  stem : String
  ext : String
deriving DecidableEq

/-- The filesystem state and its failure oracles.  `files p = some c` means a
regular file with content token `c` (also its `stat` size) exists at `p`;
`statError`/`readError` tell which calls raise OSError even though the file
exists; `canCreate d` tells whether `mkdir -p d` succeeds. -/
structure Fs where
  files : FsPath → Option Nat
  statError : FsPath → Bool
  readError : FsPath → Bool
  canCreate : String → Bool

/-- core/models.py `FileStatus`. -/
inductive FileStatus where
  | pending
  | moved
  | skipped
  | duplicate
  | error
deriving DecidableEq

/-- core/models.py `CollisionPolicy`. -/
inductive CollisionPolicy where
  | suffix
  | hash
  | skip
  | overwrite
deriving DecidableEq

/-- core/models.py `FileInfo`. -/
structure FileInfo where
  path : FsPath
  size : Nat
  extension : String
  category : String
  hash : Option String := none
  status : FileStatus := .pending
  destination : Option FsPath := none
  error : Option String := none
deriving DecidableEq

/-- Python `str.lower()` restricted to the basic-latin range (the only
characters occurring in extensions and in the category table). -/
def py_lower (s : String) : String :=
  String.mk (s.data.map Char.toLower)

/-- Python `str.lstrip(".")`: drop every leading dot. -/
def py_lstrip_dots (s : String) : String :=
  String.mk (s.data.dropWhile (fun c => c = '.'))

/-- core/config.py `CATEGORIES`, in declaration order.  Note that `pdf`
appears under both `documents` and `ebooks`, `sql` under both `code` and
`databases`, and `sh`/`dmg` also appear twice. -/
def CATEGORIES : List (String × List String) :=
  [ ("documents",
      ["pdf", "doc", "docx", "txt", "rtf", "odt", "md", "tex", "pages",
       "epub", "mobi"]),
    ("spreadsheets", ["xls", "xlsx", "csv", "ods", "numbers"]),
    ("presentations", ["ppt", "pptx", "key", "odp"]),
    ("images",
      ["jpg", "jpeg", "png", "gif", "bmp", "svg", "tiff", "tif", "webp",
       "ico", "heic", "raw"]),
    ("videos",
      ["mp4", "avi", "mkv", "mov", "wmv", "flv", "webm", "m4v", "mpg",
       "mpeg", "3gp"]),
    ("audio",
      ["mp3", "wav", "flac", "aac", "ogg", "wma", "m4a", "opus", "alac",
       "ape"]),
    ("archives",
      ["zip", "rar", "7z", "tar", "gz", "bz2", "xz", "iso", "dmg", "pkg"]),
    ("code",
      ["py", "js", "ts", "java", "c", "cpp", "h", "hpp", "cs", "go", "rs",
       "php", "rb", "swift", "kt", "scala", "sh", "bash", "zsh", "sql",
       "html", "css", "scss", "sass", "jsx", "tsx", "vue", "json", "xml",
       "yaml", "yml", "toml"]),
    ("executables",
      ["exe", "app", "dmg", "deb", "rpm", "apk", "msi", "bat", "sh",
       "command"]),
    ("fonts", ["ttf", "otf", "woff", "woff2", "eot"]),
    ("ebooks", ["epub", "mobi", "azw", "azw3", "pdf"]),
    ("design",
      ["psd", "ai", "sketch", "fig", "xd", "indd", "blend", "3ds", "max",
       "obj", "fbx"]),
    ("databases", ["db", "sqlite", "sqlite3", "sql", "mdb", "accdb"]),
    ("other", []) ]

/-- core/config.py `CATEGORY_DISPLAY_NAMES`. -/
def CATEGORY_DISPLAY_NAMES : List (String × String) :=
  [ ("documents", "📄 Documents"),
    ("spreadsheets", "📊 Spreadsheets"),
    ("presentations", "📽️ Presentations"),
    ("images", "🖼️ Images"),
    ("videos", "🎬 Videos"),
    ("audio", "🎵 Audio"),
    ("archives", "📦 Archives"),
    ("code", "💻 Code"),
    ("executables", "⚙️ Executables"),
    ("fonts", "🔤 Fonts"),
    ("ebooks", "📚 Ebooks"),
    ("design", "🎨 Design"),
    ("databases", "💾 Databases"),
    ("other", "📁 Other") ]

/-- core/config.py `MIN_FILES_FOR_RECOMMENDATION`. -/
def MIN_FILES_FOR_RECOMMENDATION : Nat := 10

/-- core/config.py `DIVERSITY_WEIGHT`. -/
def DIVERSITY_WEIGHT : ℚ := 7 / 10

/-- core/config.py `COUNT_WEIGHT`. -/
def COUNT_WEIGHT : ℚ := 3 / 10

/-- core/config.py `get_category_for_extension`: lower-case, strip leading
dots, then return the first category of `CATEGORIES` whose extension list
contains the normalized extension, defaulting to `"other"`. -/
def get_category_for_extension (ext : String) : String :=
  let ext_lower := py_lstrip_dots (py_lower ext)
  match CATEGORIES.find? (fun ce => ce.2.contains ext_lower) with
  | some ce => ce.1
  | none => "other"

/-- utils/helpers.py `get_file_extension`: `path.suffix.lstrip(".")`, then
`.lower()`. -/
def get_file_extension (p : FsPath) : String :=
  py_lower (py_lstrip_dots p.ext)

/-- utils/helpers.py `get_file_size`: `path.stat().st_size`, catching every
exception (missing file, permission) and returning 0. -/
def get_file_size (fs : Fs) (p : FsPath) : Nat :=
  match fs.files p with
  | some c => if fs.statError p then 0 else c
  | none => 0

/-- utils/helpers.py `get_file_hash`: stream the file and hash it, catching
every exception (missing file, unreadable) and returning `None`.  The hash
function on contents is kept abstract. -/
def get_file_hash (fs : Fs) (hashFn : Nat → String) (p : FsPath) :
    Option String :=
  match fs.files p with
  | some c => if fs.readError p then none else some (hashFn c)
  | none => none

/-- utils/helpers.py `create_directory_safe`: `mkdir(parents=True,
exist_ok=True)` returning whether it succeeded. -/
def create_directory_safe (fs : Fs) (d : String) : Bool :=
  fs.canCreate d

/-- The filesystem after a successful move of content `c` from `src` to
`dst`. -/
def moved_fs (fs : Fs) (src dst : FsPath) (c : Nat) : Fs :=
  { fs with
    files := fun q =>
      if q = dst then some c
      else if q = src then none
      else fs.files q }

/-- `shutil.move(src, dst)` for regular files on one POSIX filesystem:
fails (raises) iff the source does not exist; an existing destination file
is replaced by `os.rename`. -/
def fs_move (fs : Fs) (src dst : FsPath) : Option Fs :=
  match fs.files src with
  | none => none
  | some c => some (moved_fs fs src dst c)

/-- services/classifier.py `FileClassifier.classify_file`.  The body runs
inside `try`, but every helper it calls catches its own exceptions
(`get_file_size` returns 0, `get_file_hash` returns `None`), and the
remaining operations (`get_file_extension`, `get_category_for_extension`,
building the record) are pure, so the `except` branch that would build a
status=Error record is unreachable; the embedding is the `try` body. -/
def classify_file (enable_hashing : Bool) (fs : Fs) (hashFn : Nat → String)
    (file_path : FsPath) : FileInfo :=
  let extension := get_file_extension file_path
  let category := get_category_for_extension extension
  let size := get_file_size fs file_path
  let file_hash :=
    if enable_hashing then get_file_hash fs hashFn file_path else none
  { path := file_path
    size := size
    extension := extension
    category := category
    hash := file_hash
    status := FileStatus.pending }

/-- Concrete path used to exercise `classify_file` on a failing file. -/
def c7_path : FsPath := ⟨"/home/user/messy", "report", ".txt"⟩

/-- A filesystem in which `c7_path` exists but every `stat` and read raises
(permission denied). -/
def c7_fs : Fs :=
  { files := fun p => if p = c7_path then some 42 else none
    statError := fun _ => true
    readError := fun _ => true
    canCreate := fun _ => true }

/-- One step of building `hash_map` in
`FileClassifier.find_duplicates`: a Python `dict` keeps keys in first
insertion order, and `hash_map[file.hash].append(file)` appends at the end
of the key's group. -/
def hash_map_insert (m : List (String × List FileInfo)) (h : String)
    (fi : FileInfo) : List (String × List FileInfo) :=
  match m with
  | [] => [(h, [fi])]
  | (k, g) :: rest =>
      if k = h then (k, g ++ [fi]) :: rest
      else (k, g) :: hash_map_insert rest h fi

/-- The body of the first loop of `find_duplicates`: files without a hash
are skipped. -/
def dedup_step (m : List (String × List FileInfo)) (fi : FileInfo) :
    List (String × List FileInfo) :=
  match fi.hash with
  | none => m
  | some h => hash_map_insert m h fi

/-- services/classifier.py `find_duplicates`, first loop: group files by
hash, in discovery order. -/
def build_hash_map (files : List FileInfo) :
    List (String × List FileInfo) :=
  files.foldl dedup_step []

/-- The nested index loops of `find_duplicates`:
`for i in range(n - 1): for j in range(i + 1, n)` emit `(g[i], g[j])` in
increasing lexicographic `(i, j)` order. -/
def pairs_of {α : Type} : List α → List (α × α)
  | [] => []
  | x :: xs => xs.map (fun y => (x, y)) ++ pairs_of xs

/-- The body of the second loop of `find_duplicates`: groups with more than
one file contribute all their pairs, appended in group order. -/
def dup_emit (acc : List (FileInfo × FileInfo))
    (kg : String × List FileInfo) : List (FileInfo × FileInfo) :=
  if kg.2.length > 1 then acc ++ pairs_of kg.2 else acc

/-- services/classifier.py `FileClassifier.find_duplicates`. -/
def find_duplicates (enable_hashing : Bool) (files : List FileInfo) :
    List (FileInfo × FileInfo) :=
  if enable_hashing then (build_hash_map files).foldl dup_emit []
  else []

/-- A concrete classified record with the given stem and content hash, used
in the duplicate-detection scenarios. -/
def c6_rec (stem : String) (h : String) : FileInfo :=
  { path := ⟨"/home/user/messy", stem, ".txt"⟩
    size := 1
    extension := "txt"
    category := "documents"
    hash := some h }

/-- Python `round(x, 2)`: round to two decimal places.  Both the code-side
and the spec-side scoring definitions share this rounding, so the claims
about their relation are insensitive to its tie-breaking. -/
def round2 (x : ℚ) : ℚ :=
  (round (100 * x) : ℚ) / 100

/-- services/scanner.py `DirectoryScanner._calculate_score`, with
`math.log10` kept abstract as a function `log10` from the (natural) argument
`total_files + 1` to its rational value.  Zero files short-circuit to 0.0
before the formula is evaluated. -/
def calculate_score (log10 : Nat → ℚ) (total_files file_types : Nat) : ℚ :=
  if total_files = 0 then 0
  else
    let normalized_count := min 1 (log10 (total_files + 1) / 3)
    let normalized_diversity := min 1 ((file_types : ℚ) / 10)
    round2 ((DIVERSITY_WEIGHT * normalized_diversity
      + COUNT_WEIGHT * normalized_count) * 10)

/-- Modelled from the spec: the scoring formula exactly as the
specification states it, `round(10 * (diversityWeight * normalizedDiversity
+ countWeight * normalizedCount), 2)`, with no zero-file short-circuit;
kept as a second definition for the refinement comparison of C8. -/
def spec_score (log10 : Nat → ℚ) (total_files file_types : Nat) : ℚ :=
  round2 (10 * (DIVERSITY_WEIGHT * min 1 ((file_types : ℚ) / 10)
    + COUNT_WEIGHT * min 1 (log10 (total_files + 1) / 3)))

/-- core/models.py `DirectoryScore` (the `extensions` set and `recursive`
flag are informational and omitted; the score never depends on them). -/
structure DirectoryScore where
  path : String
  total_files : Nat
  file_types : Nat
  total_size : Nat
  score : ℚ
deriving DecidableEq

/-- services/scanner.py `scan_multiple_directories`: scan each directory in
order.  The per-directory filesystem walk is abstracted as the function
`scan`. -/
def scan_multiple_directories {δ : Type} (scan : δ → DirectoryScore)
    (dirs : List δ) : List DirectoryScore :=
  dirs.map scan

/-- The comparator realised by Python's stable
`sorted(key=lambda x: x.score, reverse=True)`: `a` may stay before `b`
exactly when `b.score ≤ a.score`. -/
def score_desc (a b : DirectoryScore) : Bool :=
  decide (b.score ≤ a.score)

/-- services/scanner.py `DirectoryScanner.get_recommendations`: score every
directory, keep those with at least `MIN_FILES_FOR_RECOMMENDATION` files,
sort by score descending (stable), return the first `top_n`. -/
def get_recommendations {δ : Type} (scan : δ → DirectoryScore)
    (dirs : List δ) (top_n : Nat) : List DirectoryScore :=
  let scores := scan_multiple_directories scan dirs
  let filtered_scores := scores.filter
    (fun s => MIN_FILES_FOR_RECOMMENDATION ≤ s.total_files)
  let sorted_scores := filtered_scores.mergeSort score_desc
  sorted_scores.take top_n

/-- Concrete scored directories for the recommendation scenarios. -/
def c9_d1 : DirectoryScore :=
  { path := "/home/user/downloads", total_files := 12, file_types := 4
    total_size := 4096, score := 5 }

/-- A directory under the 10-file recommendation threshold. -/
def c9_d2 : DirectoryScore :=
  { path := "/home/user/tiny", total_files := 3, file_types := 3
    total_size := 64, score := 9 }

/-- A second directory above the threshold, tied in score with `c9_d1`. -/
def c9_d3 : DirectoryScore :=
  { path := "/home/user/pictures", total_files := 15, file_types := 2
    total_size := 8192, score := 5 }

/-- Python `s[:n]`. -/
def py_take (s : String) (n : Nat) : String :=
  String.mk (s.data.take n)

/-- `CATEGORY_DISPLAY_NAMES.get(category, category)` in
`FileMover._get_destination_path`. -/
def display_name_for (category : String) : String :=
  match CATEGORY_DISPLAY_NAMES.find? (fun kv => kv.1 = category) with
  | some kv => kv.2
  | none => category

/-- mover.py `FileMover._get_destination_path`:
`session_path / display_name / file name`; the file name keeps the source
path's stem and suffix. -/
def get_destination_path (fi : FileInfo) (session_path : String) : FsPath :=
  ⟨session_path ++ "/" ++ display_name_for fi.category,
    fi.path.stem, fi.path.ext⟩

/-- The `_N` variant of a destination built by the suffix policy:
`parent / (stem ++ "_" ++ N ++ ext)`. -/
def variant (dest : FsPath) (n : Nat) : FsPath :=
  ⟨dest.dir, dest.stem ++ "_" ++ toString n, dest.ext⟩

/-- The `while True` probe loop of the suffix branch of
`FileMover._handle_collision`, with explicit fuel; `none` means the loop
did not find a free name within the fuel. -/
def suffix_probe (fs : Fs) (dest : FsPath) : Nat → Nat → Option FsPath
  | 0, _ => none
  | fuel + 1, counter =>
      let new_destination := variant dest counter
      if (fs.files new_destination).isSome then
        suffix_probe fs dest fuel (counter + 1)
      else
        some new_destination

/-- mover.py `FileMover._handle_collision`, fueled.  `none` means the call
does not terminate within the fuel.  Note the hash branch with no hash:
the source calls `self._handle_collision(file_info, destination)` again
with the policy still `hash` and the hash still absent. -/
def handle_collision (policy : CollisionPolicy) (fs : Fs) (fi : FileInfo)
    (destination : FsPath) (fuel : Nat) : Option (FileInfo × FsPath) :=
  match policy with
  | .skip => some ({ fi with status := FileStatus.skipped }, destination)
  | .overwrite => some (fi, destination)
  | .suffix => (suffix_probe fs destination fuel 1).map (fun d => (fi, d))
  | .hash =>
      match fi.hash with
      | some h =>
          some (fi,
            ⟨destination.dir, destination.stem ++ "_" ++ py_take h 8,
              destination.ext⟩)
      | none =>
          match fuel with
          | 0 => none
          | fuel' + 1 => handle_collision policy fs fi destination fuel'

/-- mover.py `FileMover._move_file`, together with the per-file exception
handling of `execute_archive`'s loop body (a raised error sets
status=Error and the captured message, and processing continues).
Returns `none` when collision resolution does not terminate (in CPython:
unbounded recursion).  The error message strings stand in for the
formatted Python messages. -/
def move_file (policy : CollisionPolicy) (fuel : Nat) (fs : Fs)
    (session_path : String) (fi : FileInfo) : Option (Fs × FileInfo) :=
  let destination0 :=
    match fi.destination with
    | some d => d
    | none => get_destination_path fi session_path
  let fi1 := { fi with destination := some destination0 }
  if create_directory_safe fs destination0.dir = false then
    some (fs,
      { fi1 with
        status := FileStatus.error
        error := some "Failed to create directory" })
  else
    match (if (fs.files destination0).isSome then
            handle_collision policy fs fi1 destination0 fuel
          else some (fi1, destination0)) with
    | none => none
    | some (fi2, destination) =>
        let fi3 := { fi2 with destination := some destination }
        match fs.files fi3.path with
        | none =>
            some (fs,
              { fi3 with
                status := FileStatus.error
                error := some "move failed" })
        | some c =>
            some ({ fs with
                    files := fun q =>
                      if q = destination then some c
                      else if q = fi3.path then none
                      else fs.files q },
              { fi3 with status := FileStatus.moved })

/-- core/models.py `ArchiveSession`, restricted to the fields the mover
reads and writes. -/
structure ArchiveSession where
  session_id : String
  source_directories : List String
  archive_path : String
  files : List FileInfo
  dry_run : Bool
deriving DecidableEq

/-- core/models.py `ArchiveSession.success_count`. -/
def success_count (s : ArchiveSession) : Nat :=
  (s.files.filter (fun f => f.status = FileStatus.moved)).length

/-- The per-file loop of `FileMover.execute_archive`: records already in
Error status are skipped, every other record goes through `_move_file`. -/
def execute_loop (policy : CollisionPolicy) (fuel : Nat)
    (session_path : String) : Fs → List FileInfo →
    Option (Fs × List FileInfo)
  | fs, [] => some (fs, [])
  | fs, fi :: rest =>
      if fi.status = FileStatus.error then
        (execute_loop policy fuel session_path fs rest).map
          (fun p => (p.1, fi :: p.2))
      else
        match move_file policy fuel fs session_path fi with
        | none => none
        | some (fs', fi') =>
            (execute_loop policy fuel session_path fs' rest).map
              (fun p => (p.1, fi' :: p.2))

/-- mover.py `FileMover.execute_archive`: refuses dry-run sessions,
returns the session unchanged when the session directory cannot be
created, otherwise runs the per-file loop. -/
def execute_archive (policy : CollisionPolicy) (fuel : Nat) (fs : Fs)
    (session : ArchiveSession) : Option (Fs × ArchiveSession) :=
  if session.dry_run then some (fs, session)
  else if create_directory_safe fs session.archive_path = false then
    some (fs, session)
  else
    (execute_loop policy fuel session.archive_path fs session.files).map
      (fun p => (p.1, { session with files := p.2 }))

/-- The loop of `FileMover.rollback_session`: every record with
status=Moved and a destination is moved back; a failed move (missing
destination) is swallowed and does not count. -/
def rollback_loop : Fs → Nat → List FileInfo → Fs × Nat
  | fs, cnt, [] => (fs, cnt)
  | fs, cnt, fi :: rest =>
      if fi.status = FileStatus.moved then
        match fi.destination with
        | none => rollback_loop fs cnt rest
        | some d =>
            match fs_move fs d fi.path with
            | some fs' => rollback_loop fs' (cnt + 1) rest
            | none => rollback_loop fs cnt rest
      else
        rollback_loop fs cnt rest

/-- mover.py `FileMover.rollback_session`.  The Python function returns
only the success flag; the session is returned here as well to expose the
post-call record state, which the function never touches (no status is
reset). -/
def rollback_session (fs : Fs) (session : ArchiveSession) :
    Fs × ArchiveSession × Bool :=
  if session.dry_run then (fs, session, false)
  else
    let r := rollback_loop fs 0 session.files
    (r.1, session, decide (r.2 = success_count session))

/-- Source path of the record in the skip-policy scenario. -/
def c1_src : FsPath := ⟨"/home/user/messy", "notes", ".txt"⟩

/-- The computed destination of that record (session path, documents
display folder, same file name). -/
def c1_dest : FsPath :=
  ⟨"/home/user/Desktop/sess/📄 Documents", "notes", ".txt"⟩

/-- The pending record in the skip-policy scenario. -/
def c1_fi : FileInfo :=
  { path := c1_src, size := 5, extension := "txt", category := "documents" }

/-- Filesystem for the skip-policy scenario: the source holds content 5 and
the destination already holds content 7. -/
def c1_fs : Fs :=
  { files := fun p =>
      if p = c1_src then some 5
      else if p = c1_dest then some 7
      else none
    statError := fun _ => false
    readError := fun _ => false
    canCreate := fun _ => true }

/-- Destination in the hash-policy scenarios. -/
def c3_dest : FsPath :=
  ⟨"/home/user/Desktop/sess/📄 Documents", "a", ".pdf"⟩

/-- A colliding record with hashing disabled (no hash). -/
def c3_fi_nohash : FileInfo :=
  { path := ⟨"/home/user/messy", "a", ".pdf"⟩, size := 3
    extension := "pdf", category := "documents", hash := none }

/-- A colliding record with a content hash. -/
def c3_fi_hash : FileInfo :=
  { path := ⟨"/home/user/messy", "a", ".pdf"⟩, size := 3
    extension := "pdf", category := "documents"
    hash := some "0123456789abcdef" }

/-- Filesystem for the hash-policy scenarios: the destination exists. -/
def c3_fs : Fs :=
  { files := fun p => if p = c3_dest then some 9 else none
    statError := fun _ => false
    readError := fun _ => false
    canCreate := fun _ => true }

/-- A pending record for the execute-archive refusal scenarios. -/
def c4_fi : FileInfo :=
  { path := ⟨"/home/user/messy", "doc", ".pdf"⟩, size := 2
    extension := "pdf", category := "documents" }

/-- A dry-run session. -/
def c4_dry_session : ArchiveSession :=
  { session_id := "s1", source_directories := ["/home/user/messy"]
    archive_path := "/home/user/Desktop/s1", files := [c4_fi]
    dry_run := true }

/-- The same session as a live run. -/
def c4_live_session : ArchiveSession :=
  { session_id := "s1", source_directories := ["/home/user/messy"]
    archive_path := "/home/user/Desktop/s1", files := [c4_fi]
    dry_run := false }

/-- A writable filesystem holding the record's source file. -/
def c4_fs : Fs :=
  { files := fun p => if p = c4_fi.path then some 2 else none
    statError := fun _ => false
    readError := fun _ => false
    canCreate := fun _ => true }

/-- A filesystem whose archive root cannot be created (read-only). -/
def c4_ro_fs : Fs :=
  { files := fun p => if p = c4_fi.path then some 2 else none
    statError := fun _ => false
    readError := fun _ => false
    canCreate := fun _ => false }

/-- Base destination of the suffix-policy scenario. -/
def c5_dest : FsPath := ⟨"/home/user/Desktop/sess", "b", ".txt"⟩

/-- The colliding record of the suffix-policy scenario. -/
def c5_fi : FileInfo :=
  { path := ⟨"/home/user/messy", "b", ".txt"⟩, size := 1
    extension := "txt", category := "documents" }

/-- Filesystem for the suffix-policy scenario: the base destination and its
`_1` and `_2` variants all pre-exist, `_3` is free. -/
def c5_fs : Fs :=
  { files := fun p =>
      if p = c5_dest then some 1
      else if p = variant c5_dest 1 then some 2
      else if p = variant c5_dest 2 then some 3
      else none
    statError := fun _ => false
    readError := fun _ => false
    canCreate := fun _ => true }

/-- Source path of the rollback scenario's record. -/
def c2_src : FsPath := ⟨"/home/user/messy", "a", ".txt"⟩

/-- Destination the record was moved to. -/
def c2_dst : FsPath := ⟨"/home/user/Desktop/s2/📄 Documents", "a", ".txt"⟩

/-- A record of a fully-moved session: status Moved, destination known. -/
def c2_fi : FileInfo :=
  { path := c2_src, size := 5, extension := "txt", category := "documents"
    status := FileStatus.moved, destination := some c2_dst }

/-- A fully-moved live session with that single record. -/
def c2_session : ArchiveSession :=
  { session_id := "s2", source_directories := ["/home/user/messy"]
    archive_path := "/home/user/Desktop/s2", files := [c2_fi]
    dry_run := false }

/-- The filesystem after that session's execution: the file lives at its
destination, the source is gone. -/
def c2_fs : Fs :=
  { files := fun p => if p = c2_dst then some 5 else none
    statError := fun _ => false
    readError := fun _ => false
    canCreate := fun _ => true }

theorem char_toNat_ofNat_valid (n : Nat) (h : n.isValidChar) :
    (Char.ofNat n).toNat = n := by
  rw [Char.ofNat, dif_pos h]
  simp [Char.ofNatAux, Char.toNat, UInt32.toNat, BitVec.toNat_ofNatLt]

theorem char_toLower_idem (c : Char) : c.toLower.toLower = c.toLower := by
  unfold Char.toLower
  by_cases h : c.toNat ≥ 65 ∧ c.toNat ≤ 90
  · rw [if_pos h]
    have hv : (c.toNat + 32).isValidChar := by
      unfold Nat.isValidChar
      left
      omega
    rw [if_neg]
    rw [char_toNat_ofNat_valid _ hv]
    omega
  · rw [if_neg h, if_neg h]

theorem py_lower_idem (s : String) : py_lower (py_lower s) = py_lower s := by
  unfold py_lower
  simp only [List.map_map]
  congr 1
  exact List.map_congr_left (fun c _ => char_toLower_idem c)

theorem get_category_eq_find (ext : String) :
    get_category_for_extension ext
      = match CATEGORIES.find?
          (fun ce => ce.2.contains (py_lstrip_dots (py_lower ext))) with
        | some ce => ce.1
        | none => "other" := rfl

theorem find?_first_of_split {α : Type} (p : α → Bool) (pre post : List α)
    (c : α) (hc : p c = true) (hpre : ∀ x ∈ pre, ¬ p x = true) :
    (pre ++ c :: post).find? p = some c := by
  induction pre with
  | nil => simp [List.find?_cons, hc]
  | cons x xs ih =>
      have hx : p x = false := by
        have := hpre x (by simp)
        simpa using this
      simp only [List.cons_append, List.find?_cons, hx]
      exact ih (fun y hy => hpre y (by simp [hy]))

/-- C10: extension-to-category lookup is a deterministic total function: it
is invariant under lower-casing the argument; `pdf`/`PDF` map to
`documents` (the first of the two declaring categories `documents` and
`ebooks`), `sql`/`SQL` map to `code` (the first of `code` and `databases`);
an extension contained in no category list maps to `"other"`; and in
general the result is the first category, in the declaration order of
`CATEGORIES`, whose extension list contains the normalized extension. -/
theorem c10_category_lookup_first_declared :
    (∀ ext : String,
      get_category_for_extension ext
        = get_category_for_extension (py_lower ext))
    ∧ get_category_for_extension "pdf" = "documents"
    ∧ get_category_for_extension "PDF" = "documents"
    ∧ get_category_for_extension "sql" = "code"
    ∧ get_category_for_extension "SQL" = "code"
    ∧ (∀ ext : String,
        (∀ ce ∈ CATEGORIES,
          ¬ ce.2.contains (py_lstrip_dots (py_lower ext)) = true) →
        get_category_for_extension ext = "other")
    ∧ (∀ (ext : String) (pre post : List (String × List String))
        (c : String × List String),
        CATEGORIES = pre ++ c :: post →
        c.2.contains (py_lstrip_dots (py_lower ext)) = true →
        (∀ ce ∈ pre,
          ¬ ce.2.contains (py_lstrip_dots (py_lower ext)) = true) →
        get_category_for_extension ext = c.1) := by
  refine ⟨?_, by decide, by decide, by decide, by decide, ?_, ?_⟩
  · intro ext
    rw [get_category_eq_find, get_category_eq_find, py_lower_idem]
  · intro ext hnone
    rw [get_category_eq_find,
      List.find?_eq_none.mpr (fun x hx => hnone x hx)]
  · intro ext pre post c hsplit hc hpre
    rw [get_category_eq_find, hsplit,
      find?_first_of_split _ pre post c hc hpre]

/-- C10 witness: a concrete evaluation through the theorem: the unknown
extension `qqq` maps to `"other"`. -/
theorem c10_category_lookup_first_declared_witness :
    get_category_for_extension "qqq" = "other" :=
  c10_category_lookup_first_declared.2.2.2.2.2.1 "qqq" (by decide)

/-- C7 counterexample: on a file whose `stat` and read both raise
(permission denied), `classify_file` returns a record with
status=Pending — not status=Error as the claim states — with no error
message captured; the failure is swallowed inside `get_file_size` (which
returns 0) and `get_file_hash` (which returns `None`). -/
theorem c7_classify_error_counterexample :
    (classify_file true c7_fs (fun c => toString c) c7_path).status
        = FileStatus.pending
    ∧ ¬ (classify_file true c7_fs (fun c => toString c) c7_path).status
        = FileStatus.error
    ∧ (classify_file true c7_fs (fun c => toString c) c7_path).size = 0
    ∧ (classify_file true c7_fs (fun c => toString c) c7_path).hash = none
    ∧ (classify_file true c7_fs (fun c => toString c) c7_path).error
        = none := by
  decide

/-- C7 amended: `classify_file` is total toward its caller (it is a total
function of its inputs and never reaches its `except` branch), but a
failure does not yield a status=Error record: the helpers swallow the
error, so the record always comes back with status=Pending and no error
message; a `stat` failure (vanished file, permission) yields size=0, and a
read failure (or disabled hashing) yields hash=None. -/
theorem c7_classify_total_amended (enable_hashing : Bool) (fs : Fs)
    (hashFn : Nat → String) (p : FsPath) :
    (classify_file enable_hashing fs hashFn p).status = FileStatus.pending
    ∧ (classify_file enable_hashing fs hashFn p).error = none
    ∧ (fs.files p = none ∨ fs.statError p = true →
        (classify_file enable_hashing fs hashFn p).size = 0)
    ∧ (fs.files p = none ∨ fs.readError p = true ∨ enable_hashing = false →
        (classify_file enable_hashing fs hashFn p).hash = none) := by
  refine ⟨rfl, rfl, ?_, ?_⟩
  · intro h
    unfold classify_file get_file_size
    rcases h with h | h
    · simp [h]
    · cases hf : fs.files p <;> simp [h, hf]
  · intro h
    unfold classify_file get_file_hash
    rcases h with h | h | h
    · simp [h]
    · cases hf : fs.files p <;> simp [h, hf]
    · simp [h]

/-- C7 amended witness: the amended theorem applied to the concrete failing
file of the counterexample scenario. -/
theorem c7_classify_total_amended_witness :
    (classify_file true c7_fs (fun c => toString c) c7_path).size = 0
    ∧ (classify_file true c7_fs (fun c => toString c) c7_path).hash
        = none :=
  ⟨(c7_classify_total_amended true c7_fs (fun c => toString c) c7_path).2.2.1
      (Or.inr (by decide)),
    (c7_classify_total_amended true c7_fs (fun c => toString c) c7_path).2.2.2
      (Or.inr (Or.inl (by decide)))⟩

theorem two_mul_pairs_of_length {α : Type} (l : List α) :
    2 * (pairs_of l).length = l.length * (l.length - 1) := by
  induction l with
  | nil => rfl
  | cons x xs ih =>
      simp only [pairs_of, List.length_append, List.length_map,
        List.length_cons, Nat.add_sub_cancel]
      have h2 : 2 * (xs.length + (pairs_of xs).length)
          = 2 * xs.length + 2 * (pairs_of xs).length := by ring
      rw [h2, ih]
      cases xs.length with
      | zero => rfl
      | succ m =>
          simp only [Nat.succ_sub_one]
          ring

theorem foldl_dedup_all_same (h0 : String) (files : List FileInfo) :
    ∀ g : List FileInfo, (∀ fi ∈ files, fi.hash = some h0) →
      files.foldl dedup_step [(h0, g)] = [(h0, g ++ files)] := by
  induction files with
  | nil => intro g _; simp
  | cons fi rest ih =>
      intro g hall
      have hfi : fi.hash = some h0 := hall fi (by simp)
      have hstep : dedup_step [(h0, g)] fi = [(h0, g ++ [fi])] := by
        simp [dedup_step, hfi, hash_map_insert]
      rw [List.foldl_cons, hstep,
        ih (g ++ [fi]) (fun x hx => hall x (by simp [hx]))]
      simp

theorem build_hash_map_all_same (h0 : String) (fi : FileInfo)
    (rest : List FileInfo)
    (hall : ∀ x ∈ fi :: rest, x.hash = some h0) :
    build_hash_map (fi :: rest) = [(h0, fi :: rest)] := by
  have hfi : fi.hash = some h0 := hall fi (by simp)
  unfold build_hash_map
  rw [List.foldl_cons]
  have hstep : dedup_step [] fi = [(h0, [fi])] := by
    simp [dedup_step, hfi, hash_map_insert]
  rw [hstep, foldl_dedup_all_same h0 rest [fi]
    (fun x hx => hall x (by simp [hx]))]
  simp

theorem find_duplicates_all_same (h0 : String) (files : List FileInfo)
    (hall : ∀ x ∈ files, x.hash = some h0) :
    find_duplicates true files = pairs_of files := by
  cases files with
  | nil => rfl
  | cons fi rest =>
      unfold find_duplicates
      rw [if_pos rfl, build_hash_map_all_same h0 fi rest hall]
      cases rest with
      | nil => rfl
      | cons fj rest2 =>
          simp [dup_emit]

theorem hash_map_insert_fresh (h : String) (fi : FileInfo) :
    ∀ m : List (String × List FileInfo), (∀ kg ∈ m, kg.1 ≠ h) →
      hash_map_insert m h fi = m ++ [(h, [fi])] := by
  intro m
  induction m with
  | nil => intro _; rfl
  | cons kg rest ih =>
      intro hfresh
      obtain ⟨k, g⟩ := kg
      have hk : k ≠ h := hfresh (k, g) (by simp)
      simp only [hash_map_insert, if_neg hk, List.cons_append,
        List.cons.injEq, true_and]
      exact ih (fun x hx => hfresh x (by simp [hx]))

theorem build_groups_small (files : List FileInfo) :
    ∀ acc : List (String × List FileInfo),
      files.Pairwise (fun a b => ∀ h, a.hash = some h → b.hash ≠ some h) →
      (∀ kg ∈ acc, ∀ fi ∈ files, fi.hash ≠ some kg.1) →
      (∀ kg ∈ acc, kg.2.length ≤ 1) →
      ∀ kg ∈ files.foldl dedup_step acc, kg.2.length ≤ 1 := by
  induction files with
  | nil => intro acc _ _ hle; simpa using hle
  | cons fi rest ih =>
      intro acc hpw hkeys hle
      rw [List.foldl_cons]
      rcases hpair : fi.hash with _ | h
      · have hstep : dedup_step acc fi = acc := by simp [dedup_step, hpair]
        rw [hstep]
        exact ih acc hpw.of_cons
          (fun kg hkg x hx => hkeys kg hkg x (by simp [hx])) hle
      · have hfresh : ∀ kg ∈ acc, kg.1 ≠ h := by
          intro kg hkg
          intro hkh
          exact hkeys kg hkg fi (by simp) (by rw [hpair, hkh])
        have hstep : dedup_step acc fi = acc ++ [(h, [fi])] := by
          simp only [dedup_step, hpair]
          exact hash_map_insert_fresh h fi acc hfresh
        rw [hstep]
        refine ih (acc ++ [(h, [fi])]) hpw.of_cons ?_ ?_
        · intro kg hkg x hx
          rcases List.mem_append.mp hkg with hin | hin
          · exact hkeys kg hin x (by simp [hx])
          · have hkg2 : kg = (h, [fi]) := by simpa using hin
            subst hkg2
            intro hxh
            exact (List.pairwise_cons.mp hpw).1 x hx h hpair hxh
        · intro kg hkg
          rcases List.mem_append.mp hkg with hin | hin
          · exact hle kg hin
          · have hkg2 : kg = (h, [fi]) := by simpa using hin
            subst hkg2
            simp

theorem foldl_dup_emit_small (hm : List (String × List FileInfo))
    (hle : ∀ kg ∈ hm, kg.2.length ≤ 1) :
    ∀ acc, hm.foldl dup_emit acc = acc := by
  induction hm with
  | nil => intro acc; rfl
  | cons kg rest ih =>
      intro acc
      have hk : ¬ kg.2.length > 1 := by
        have := hle kg (by simp)
        omega
      rw [List.foldl_cons]
      have hstep : dup_emit acc kg = acc := by simp [dup_emit, hk]
      rw [hstep]
      exact ih (fun x hx => hle x (by simp [hx])) acc

/-- C6: `find_duplicates` on N records all sharing one hash returns exactly
N(N−1)/2 pairs; on records with pairwise distinct hashes it returns the
empty list; and the pairs are emitted in a stable order: on a single shared
hash the output is exactly the index-ordered pair list, and on the
concrete four-record input with interleaved hashes `ha, hb, ha, hb` the
output lists the `ha` pair (group discovered first) before the `hb`
pair. -/
theorem c6_find_duplicates_count_and_order :
    (∀ (files : List FileInfo) (h0 : String),
      (∀ fi ∈ files, fi.hash = some h0) →
      (find_duplicates true files).length
        = files.length * (files.length - 1) / 2)
    ∧ (∀ files : List FileInfo,
        files.Pairwise
          (fun a b => ∀ h, a.hash = some h → b.hash ≠ some h) →
        find_duplicates true files = [])
    ∧ (∀ (files : List FileInfo) (h0 : String),
        (∀ fi ∈ files, fi.hash = some h0) →
        find_duplicates true files = pairs_of files)
    ∧ find_duplicates true
        [c6_rec "a1" "ha", c6_rec "b1" "hb", c6_rec "a2" "ha",
          c6_rec "b2" "hb"]
      = [(c6_rec "a1" "ha", c6_rec "a2" "ha"),
          (c6_rec "b1" "hb", c6_rec "b2" "hb")] := by
  refine ⟨?_, ?_, ?_, by decide⟩
  · intro files h0 hall
    rw [find_duplicates_all_same h0 files hall]
    have h2 := two_mul_pairs_of_length files
    omega
  · intro files hpw
    unfold find_duplicates
    rw [if_pos rfl]
    exact foldl_dup_emit_small (build_hash_map files)
      (build_groups_small files [] hpw (by simp) (by simp)) []
  · intro files h0 hall
    exact find_duplicates_all_same h0 files hall

/-- C6 witness: three records share one hash and produce exactly
3·2/2 = 3 duplicate pairs. -/
theorem c6_find_duplicates_count_and_order_witness :
    (find_duplicates true
      [c6_rec "x" "h", c6_rec "y" "h", c6_rec "z" "h"]).length = 3 := by
  have h3 := c6_find_duplicates_count_and_order.1
    [c6_rec "x" "h", c6_rec "y" "h", c6_rec "z" "h"] "h" (by decide)
  simpa using h3

/-- C8: on every actually occurring scan input (zero files force zero
distinct extensions, and `log10 1 = 0`), `_calculate_score` agrees with the
formula of the specification,
`round(10 * (diversityWeight * min(1, types / 10)
+ countWeight * min(1, log10(files + 1) / 3)), 2)`, as a deterministic pure
function of the two counts; and a directory with zero files scores exactly
0 whatever the type count. -/
theorem c8_score_matches_spec (log10 : Nat → ℚ)
    (total_files file_types : Nat) (hlog1 : log10 1 = 0)
    (hscan : total_files = 0 → file_types = 0) :
    calculate_score log10 total_files file_types
      = spec_score log10 total_files file_types
    ∧ (∀ t : Nat, calculate_score log10 0 t = 0) := by
  constructor
  · by_cases h0 : total_files = 0
    · have ht := hscan h0
      subst h0
      subst ht
      simp [calculate_score, spec_score, round2, hlog1,
        DIVERSITY_WEIGHT, COUNT_WEIGHT]
    · simp only [calculate_score, spec_score, if_neg h0]
      congr 1
      ring
  · intro t
    simp [calculate_score]

/-- C8 witness: the agreement evaluated at the zero-file scan input. -/
theorem c8_score_matches_spec_witness :
    calculate_score (fun _ => 0) 0 0 = spec_score (fun _ => 0) 0 0 :=
  (c8_score_matches_spec (fun _ => 0) 0 0 rfl (fun _ => rfl)).1

theorem score_desc_trans (a b c : DirectoryScore)
    (hab : score_desc a b = true) (hbc : score_desc b c = true) :
    score_desc a c = true := by
  simp only [score_desc, decide_eq_true_eq] at *
  exact le_trans hbc hab

theorem score_desc_total (a b : DirectoryScore) :
    (score_desc a b || score_desc b a) = true := by
  simp only [score_desc, Bool.or_eq_true, decide_eq_true_eq]
  exact le_total b.score a.score

/-- C9: for every directory list and every `top_n`, the recommendations
all meet the 10-file minimum and come from scoring the input directories;
they are sorted descending by score; their count is
`min top_n (number of directories meeting the minimum)`; ties keep their
original input order (any score-tied pair appearing in filtered input
order appears in the same order in the sorted list); and the output is
exactly the first `top_n` of the stable-sorted filtered scores. -/
theorem c9_get_recommendations_spec {δ : Type} (scan : δ → DirectoryScore)
    (dirs : List δ) (top_n : Nat) :
    (∀ s ∈ get_recommendations scan dirs top_n,
      MIN_FILES_FOR_RECOMMENDATION ≤ s.total_files ∧ s ∈ dirs.map scan)
    ∧ (get_recommendations scan dirs top_n).Pairwise
        (fun a b => b.score ≤ a.score)
    ∧ (get_recommendations scan dirs top_n).length
        = min top_n ((dirs.map scan).filter
            (fun s => MIN_FILES_FOR_RECOMMENDATION ≤ s.total_files)).length
    ∧ (∀ a b : DirectoryScore, a.score = b.score →
        [a, b].Sublist ((dirs.map scan).filter
          (fun s => MIN_FILES_FOR_RECOMMENDATION ≤ s.total_files)) →
        [a, b].Sublist (((dirs.map scan).filter
          (fun s => MIN_FILES_FOR_RECOMMENDATION ≤ s.total_files)).mergeSort
            score_desc))
    ∧ get_recommendations scan dirs top_n
        = (((dirs.map scan).filter
            (fun s => MIN_FILES_FOR_RECOMMENDATION ≤ s.total_files)).mergeSort
              score_desc).take top_n := by
  refine ⟨?_, ?_, ?_, ?_, rfl⟩
  · intro s hs
    have hs2 : s ∈ ((dirs.map scan).filter
        (fun s => MIN_FILES_FOR_RECOMMENDATION ≤ s.total_files)).mergeSort
          score_desc :=
      (List.take_sublist _ _).subset hs
    have hs3 := (List.mergeSort_perm _ score_desc).subset hs2
    have hs4 := List.mem_filter.mp hs3
    exact ⟨by simpa using hs4.2, hs4.1⟩
  · have hsorted := @List.sorted_mergeSort DirectoryScore score_desc
      score_desc_trans score_desc_total
      ((dirs.map scan).filter
        (fun s => MIN_FILES_FOR_RECOMMENDATION ≤ s.total_files))
    have htake := hsorted.sublist (List.take_sublist top_n _)
    exact htake.imp (fun h => by simpa [score_desc] using h)
  · simp only [get_recommendations, scan_multiple_directories,
      List.length_take, List.length_mergeSort]
  · intro a b hab hsub
    refine List.sublist_mergeSort score_desc_trans score_desc_total ?_ hsub
    have hpair : score_desc a b = true := by
      simp only [score_desc, decide_eq_true_eq]
      exact le_of_eq hab.symm
    simp [List.pairwise_cons, hpair]

/-- C9 witness: with three concrete scored directories (12, 3 and 15
files; the 12- and 15-file ones tied at score 5), the theorem yields that
the score-tied pair keeps its input order in the sorted list. -/
theorem c9_get_recommendations_spec_witness :
    [c9_d1, c9_d3].Sublist
      (((([c9_d1, c9_d2, c9_d3]).map id).filter
        (fun s => MIN_FILES_FOR_RECOMMENDATION ≤ s.total_files)).mergeSort
          score_desc) :=
  (c9_get_recommendations_spec id [c9_d1, c9_d2, c9_d3] 2).2.2.2.1
    c9_d1 c9_d3 (by decide) (by decide)

/-- C1 (evaluation at the failing input): under the skip policy,
`_handle_collision` does set the record to Skipped and keep the
destination, but `_move_file` then moves the file anyway: the final record
status is Moved, the pre-existing destination content 7 is replaced by the
source content 5, and the source file is gone — contradicting the claimed
Skipped status, retained original and preserved destination. -/
theorem c1_skip_policy_moves_anyway :
    handle_collision CollisionPolicy.skip c1_fs c1_fi c1_dest 0
      = some ({ c1_fi with status := FileStatus.skipped }, c1_dest)
    ∧ (move_file CollisionPolicy.skip 0 c1_fs "/home/user/Desktop/sess"
        c1_fi).map
        (fun r => (r.2.status, r.2.destination,
          r.1.files c1_dest, r.1.files c1_src))
      = some (FileStatus.moved, some c1_dest, some 5, none) := by
  decide

/-- C3 (evaluation at the failing input): under the hash policy a
colliding record with a hash gets the first 8 hash characters appended
before the extension, as claimed; but a colliding record without a hash
never terminates — `_handle_collision` re-enters itself with the policy
still `hash`, so for every fuel the fueled embedding yields no result,
instead of falling back to the suffix policy. -/
theorem c3_hash_policy_no_hash_diverges :
    (∀ fuel : Nat,
      handle_collision CollisionPolicy.hash c3_fs c3_fi_nohash c3_dest fuel
        = none)
    ∧ handle_collision CollisionPolicy.hash c3_fs c3_fi_hash c3_dest 0
      = some (c3_fi_hash,
          ⟨c3_dest.dir, c3_dest.stem ++ "_" ++ "01234567", c3_dest.ext⟩) := by
  constructor
  · intro fuel
    induction fuel with
    | zero => rfl
    | succ n ih =>
        have hstep :
            handle_collision CollisionPolicy.hash c3_fs c3_fi_nohash c3_dest
                (n + 1)
              = handle_collision CollisionPolicy.hash c3_fs c3_fi_nohash
                  c3_dest n := rfl
        rw [hstep]
        exact ih
  · decide

/-- C4: `execute_archive` on a dry-run session, or on a live session whose
archive root directory cannot be created, returns the filesystem and the
session unchanged — no file is moved and every record keeps its previous
status. -/
theorem c4_execute_refuses_dry_run_and_bad_root (policy : CollisionPolicy)
    (fuel : Nat) (fs : Fs) (session : ArchiveSession) :
    (session.dry_run = true →
      execute_archive policy fuel fs session = some (fs, session))
    ∧ (fs.canCreate session.archive_path = false →
      execute_archive policy fuel fs session = some (fs, session)) := by
  constructor
  · intro h
    simp [execute_archive, h]
  · intro h
    by_cases hd : session.dry_run
    · simp [execute_archive, hd]
    · simp [execute_archive, hd, create_directory_safe, h]

/-- C4 witness: a concrete dry-run session and a concrete live session
against a read-only archive root both come back unchanged. -/
theorem c4_execute_refuses_dry_run_and_bad_root_witness :
    execute_archive CollisionPolicy.suffix 0 c4_fs c4_dry_session
      = some (c4_fs, c4_dry_session)
    ∧ execute_archive CollisionPolicy.suffix 0 c4_ro_fs c4_live_session
      = some (c4_ro_fs, c4_live_session) :=
  ⟨(c4_execute_refuses_dry_run_and_bad_root CollisionPolicy.suffix 0 c4_fs
      c4_dry_session).1 (by decide),
    (c4_execute_refuses_dry_run_and_bad_root CollisionPolicy.suffix 0
      c4_ro_fs c4_live_session).2 (by decide)⟩

theorem suffix_probe_first (fs : Fs) (dest : FsPath) (N : Nat)
    (hfree : fs.files (variant dest N) = none) :
    ∀ (fuel counter : Nat), counter ≤ N → N < counter + fuel →
      (∀ m, counter ≤ m → m < N →
        (fs.files (variant dest m)).isSome = true) →
      suffix_probe fs dest fuel counter = some (variant dest N) := by
  intro fuel
  induction fuel with
  | zero =>
      intro counter hc hlt _
      omega
  | succ f ih =>
      intro counter hc hlt hbusy
      by_cases hcN : counter = N
      · subst hcN
        simp [suffix_probe, hfree]
      · have hlt2 : counter < N := lt_of_le_of_ne hc hcN
        have hb := hbusy counter le_rfl hlt2
        simp only [suffix_probe, hb, if_true]
        exact ih (counter + 1) (by omega) (by omega)
          (fun m hm1 hm2 => hbusy m (by omega) hm2)

/-- C5: under the suffix policy, for every colliding record and every
filesystem in which the `_N` variant (N ≥ 1) is the first free one, the
resolved destination is exactly that first free `stem_N.ext` variant —
for any `N`, with any fuel of at least `N`, so the probe loop has no
artificial upper bound. -/
theorem c5_suffix_policy_first_free (fs : Fs) (dest : FsPath)
    (fi : FileInfo) (N fuel : Nat) (h1 : 1 ≤ N)
    (hfree : fs.files (variant dest N) = none)
    (hbusy : ∀ m, 1 ≤ m → m < N →
      (fs.files (variant dest m)).isSome = true)
    (hfuel : N ≤ fuel) :
    handle_collision CollisionPolicy.suffix fs fi dest fuel
      = some (fi, variant dest N) := by
  cases fuel with
  | zero => exact absurd hfuel (by omega)
  | succ f =>
      have hdef : handle_collision CollisionPolicy.suffix fs fi dest (f + 1)
          = (suffix_probe fs dest (f + 1) 1).map (fun d => (fi, d)) := rfl
      rw [hdef,
        suffix_probe_first fs dest N hfree (f + 1) 1 h1 (by omega) hbusy]
      rfl

/-- C5 witness: with the base destination and its `_1`, `_2` variants all
pre-existing and `_3` absent, collision resolution yields the `_3`
variant. -/
theorem c5_suffix_policy_first_free_witness :
    handle_collision CollisionPolicy.suffix c5_fs c5_fi c5_dest 5
      = some (c5_fi, variant c5_dest 3) :=
  c5_suffix_policy_first_free c5_fs c5_dest c5_fi 3 5 (by decide)
    (by decide)
    (fun m hm1 hm2 => by
      interval_cases m
      · decide
      · decide)
    (by decide)

theorem rollback_loop_restores (files : List FileInfo) :
    ∀ (fs : Fs) (cnt : Nat),
      (∀ fi ∈ files, fi.status = FileStatus.moved) →
      (∀ fi ∈ files, ∃ d, fi.destination = some d
        ∧ ∃ c, fs.files d = some c) →
      (files.map (fun f => f.path)).Nodup →
      (files.filterMap (fun f => f.destination)).Nodup →
      (∀ fi ∈ files, ∀ fj ∈ files, ∀ d,
        fj.destination = some d → fi.path ≠ d) →
      (rollback_loop fs cnt files).2 = cnt + files.length
      ∧ (∀ fi ∈ files, ∀ d, fi.destination = some d →
          (rollback_loop fs cnt files).1.files fi.path = fs.files d
          ∧ (rollback_loop fs cnt files).1.files d = none)
      ∧ (∀ q : FsPath,
          (∀ fi ∈ files, q ≠ fi.path ∧ fi.destination ≠ some q) →
          (rollback_loop fs cnt files).1.files q = fs.files q) := by
  induction files with
  | nil =>
      intro fs cnt _ _ _ _ _
      exact ⟨by simp [rollback_loop], by simp,
        fun q _ => by simp [rollback_loop]⟩
  | cons fi rest ih =>
      intro fs cnt hmv hex hnp hnd hpd
      obtain ⟨d, hd, c, hc⟩ := hex fi (List.mem_cons_self fi rest)
      have hst : fi.status = FileStatus.moved :=
        hmv fi (List.mem_cons_self fi rest)
      have hfsm : fs_move fs d fi.path = some (moved_fs fs d fi.path c) := by
        simp [fs_move, hc]
      have hstep : rollback_loop fs cnt (fi :: rest)
          = rollback_loop (moved_fs fs d fi.path c) (cnt + 1) rest := by
        simp only [rollback_loop, hst, if_pos, hd, hfsm]
      have hnp2 : (fi.path :: rest.map (fun f => f.path)).Nodup := by
        rw [List.map_cons] at hnp
        exact hnp
      obtain ⟨hF1, hnp'⟩ := List.nodup_cons.mp hnp2
      have hnd2 :
          (d :: rest.filterMap (fun f => f.destination)).Nodup := by
        simp only [List.filterMap_cons, hd] at hnd
        exact hnd
      obtain ⟨hF2, hnd'⟩ := List.nodup_cons.mp hnd2
      have hF3 : d ≠ fi.path :=
        (hpd fi (List.mem_cons_self fi rest) fi
          (List.mem_cons_self fi rest) d hd).symm
      have hF4 : ∀ fj ∈ rest, ∀ d', fj.destination = some d' →
          d' ≠ fi.path ∧ d' ≠ d := by
        intro fj hj d' hd'
        constructor
        · exact (hpd fi (List.mem_cons_self fi rest) fj
            (List.mem_cons_of_mem fi hj) d' hd').symm
        · intro hcontra
          exact hF2 (hcontra ▸ List.mem_filterMap.mpr ⟨fj, hj, hd'⟩)
      have hF5 : ∀ fj ∈ rest, fi.path ≠ fj.path := by
        intro fj hj hcontra
        exact hF1 (hcontra ▸ List.mem_map.mpr ⟨fj, hj, rfl⟩)
      have hF6 : ∀ fj ∈ rest, fj.destination ≠ some fi.path := by
        intro fj hj hcontra
        exact (hpd fi (List.mem_cons_self fi rest) fj
          (List.mem_cons_of_mem fi hj) fi.path hcontra) rfl
      have hG1 : (moved_fs fs d fi.path c).files fi.path = some c := by
        simp [moved_fs]
      have hG2 : (moved_fs fs d fi.path c).files d = none := by
        simp only [moved_fs]
        rw [if_neg hF3]
        simp
      have hG3 : ∀ q, q ≠ fi.path → q ≠ d →
          (moved_fs fs d fi.path c).files q = fs.files q := by
        intro q h1 h2
        simp only [moved_fs]
        rw [if_neg h1, if_neg h2]
      have hex' : ∀ fj ∈ rest, ∃ d', fj.destination = some d'
          ∧ ∃ c', (moved_fs fs d fi.path c).files d' = some c' := by
        intro fj hj
        obtain ⟨d', hd', c', hc'⟩ := hex fj (List.mem_cons_of_mem fi hj)
        obtain ⟨hne1, hne2⟩ := hF4 fj hj d' hd'
        exact ⟨d', hd', c', by rw [hG3 d' hne1 hne2]; exact hc'⟩
      obtain ⟨ihc, ihr, ihf⟩ := ih (moved_fs fs d fi.path c) (cnt + 1)
        (fun fj hj => hmv fj (List.mem_cons_of_mem fi hj))
        hex' hnp' hnd'
        (fun a ha b hb d' hb' =>
          hpd a (List.mem_cons_of_mem fi ha) b
            (List.mem_cons_of_mem fi hb) d' hb')
      refine ⟨?_, ?_, ?_⟩
      · rw [hstep, ihc]
        simp [List.length_cons]
        omega
      · intro fj hj d' hd'
        rcases List.mem_cons.mp hj with rfl | hjr
        · have hdd : d' = d := by
            rw [hd] at hd'
            exact (Option.some.inj hd').symm
          rw [hdd]
          constructor
          · rw [hstep,
              ihf fj.path (fun fk hk => ⟨hF5 fk hk, hF6 fk hk⟩),
              hG1, hc]
          · rw [hstep,
              ihf d (fun fk hk =>
                ⟨(hpd fk (List.mem_cons_of_mem fj hk) fj
                    (List.mem_cons_self fj rest) d hd).symm,
                  fun hcontra =>
                    hF2 (List.mem_filterMap.mpr ⟨fk, hk, hcontra⟩)⟩),
              hG2]
        · obtain ⟨hr1, hr2⟩ := ihr fj hjr d' hd'
          obtain ⟨hne1, hne2⟩ := hF4 fj hjr d' hd'
          exact ⟨by rw [hstep, hr1, hG3 d' hne1 hne2],
            by rw [hstep]; exact hr2⟩
      · intro q hq
        obtain ⟨hq1, hq2⟩ := hq fi (List.mem_cons_self fi rest)
        have hqd : q ≠ d := fun h => hq2 (by rw [hd, h])
        rw [hstep,
          ihf q (fun fk hk => hq fk (List.mem_cons_of_mem fi hk)),
          hG3 q hq1 hqd]

theorem rollback_loop_noop (files : List FileInfo) :
    ∀ (fs : Fs) (cnt : Nat),
      (∀ fi ∈ files, ∀ d, fi.destination = some d → fs.files d = none) →
      rollback_loop fs cnt files = (fs, cnt) := by
  induction files with
  | nil => intro fs cnt _; rfl
  | cons fi rest ih =>
      intro fs cnt h
      by_cases hst : fi.status = FileStatus.moved
      · cases hfd : fi.destination with
        | none =>
            have hs : rollback_loop fs cnt (fi :: rest)
                = rollback_loop fs cnt rest := by
              simp only [rollback_loop, hst, if_pos, hfd]
            rw [hs]
            exact ih fs cnt (fun fj hj => h fj (List.mem_cons_of_mem fi hj))
        | some d =>
            have hnone : fs.files d = none :=
              h fi (List.mem_cons_self fi rest) d hfd
            have hm : fs_move fs d fi.path = none := by
              simp [fs_move, hnone]
            have hs : rollback_loop fs cnt (fi :: rest)
                = rollback_loop fs cnt rest := by
              simp only [rollback_loop, hst, if_pos, hfd, hm]
            rw [hs]
            exact ih fs cnt (fun fj hj => h fj (List.mem_cons_of_mem fi hj))
      · have hs : rollback_loop fs cnt (fi :: rest)
            = rollback_loop fs cnt rest := by
          simp only [rollback_loop, if_neg hst]
        rw [hs]
        exact ih fs cnt (fun fj hj => h fj (List.mem_cons_of_mem fi hj))

theorem success_count_all_moved (s : ArchiveSession)
    (h : ∀ fi ∈ s.files, fi.status = FileStatus.moved) :
    success_count s = s.files.length := by
  unfold success_count
  rw [List.filter_eq_self.mpr (fun a ha => by simp [h a ha])]

/-- C2 counterexample: on a concrete fully-moved live session,
`rollback_session` reports success and restores the file from its
destination back to its source, yet the session's records — which the
function never touches — still contain a record in Moved status,
contradicting the claim that no record remains in Moved status after a
rollback. -/
theorem c2_rollback_counterexample :
    (rollback_session c2_fs c2_session).2.2 = true
    ∧ (rollback_session c2_fs c2_session).1.files c2_src = some 5
    ∧ (rollback_session c2_fs c2_session).1.files c2_dst = none
    ∧ ((rollback_session c2_fs c2_session).2.1.files.filter
        (fun f => f.status = FileStatus.moved)).length = 1 := by
  decide

/-- C2 amended: rolling back a fully-moved live session (every record
Moved with a destination present on disk, all source and destination
paths pairwise distinct) restores every file to its exact original source
path and returns True; but the record statuses are left untouched, so the
session still reads fully Moved; re-running rollback on the result moves
nothing — every per-file move fails on the now-missing destination and
the filesystem comes back unchanged — and the second call returns False
for a nonempty session. -/
theorem c2_rollback_amended (fs : Fs) (s : ArchiveSession)
    (hlive : s.dry_run = false)
    (hmv : ∀ fi ∈ s.files, fi.status = FileStatus.moved)
    (hex : ∀ fi ∈ s.files, ∃ d, fi.destination = some d
      ∧ ∃ c, fs.files d = some c)
    (hnp : (s.files.map (fun f => f.path)).Nodup)
    (hnd : (s.files.filterMap (fun f => f.destination)).Nodup)
    (hpd : ∀ fi ∈ s.files, ∀ fj ∈ s.files, ∀ d,
      fj.destination = some d → fi.path ≠ d) :
    (rollback_session fs s).2.2 = true
    ∧ (∀ fi ∈ s.files, ∀ d, fi.destination = some d →
        (rollback_session fs s).1.files fi.path = fs.files d
        ∧ (rollback_session fs s).1.files d = none)
    ∧ (rollback_session fs s).2.1 = s
    ∧ (rollback_session (rollback_session fs s).1 s).1
        = (rollback_session fs s).1
    ∧ (s.files ≠ [] →
        (rollback_session (rollback_session fs s).1 s).2.2 = false) := by
  obtain ⟨hcnt, hres, _⟩ :=
    rollback_loop_restores s.files fs 0 hmv hex hnp hnd hpd
  have hsess : rollback_session fs s
      = ((rollback_loop fs 0 s.files).1, s,
          decide ((rollback_loop fs 0 s.files).2 = success_count s)) := by
    simp [rollback_session, hlive]
  have hfs1 : (rollback_session fs s).1
      = (rollback_loop fs 0 s.files).1 := by rw [hsess]
  have hses1 : (rollback_session fs s).2.1 = s := by rw [hsess]
  have hbool : (rollback_session fs s).2.2
      = decide ((rollback_loop fs 0 s.files).2 = success_count s) := by
    rw [hsess]
  have hsc : success_count s = s.files.length := success_count_all_moved s hmv
  have hnone : ∀ fi ∈ s.files, ∀ d, fi.destination = some d →
      (rollback_session fs s).1.files d = none := by
    intro fi hfi d hd
    rw [hfs1]
    exact (hres fi hfi d hd).2
  have hloop2 : rollback_loop (rollback_loop fs 0 s.files).1 0 s.files
      = ((rollback_loop fs 0 s.files).1, 0) :=
    rollback_loop_noop s.files _ 0
      (fun fi hfi d hd => (hres fi hfi d hd).2)
  have hsess2 : rollback_session (rollback_session fs s).1 s
      = ((rollback_session fs s).1, s, decide (0 = success_count s)) := by
    rw [hfs1]
    simp [rollback_session, hlive, hloop2]
  refine ⟨?_, ?_, hses1, ?_, ?_⟩
  · rw [hbool, hcnt, hsc]
    simp
  · intro fi hfi d hd
    rw [hfs1]
    exact hres fi hfi d hd
  · rw [hsess2]
  · intro hne
    have hlen : s.files.length ≠ 0 := fun h0 => hne (List.length_eq_zero.mp h0)
    rw [hsess2]
    simp [hsc]
    omega

/-- C2 amended witness: the amended theorem applied to the concrete
fully-moved one-record session: the session's records come back untouched
and the second rollback returns False. -/
theorem c2_rollback_amended_witness :
    (rollback_session c2_fs c2_session).2.1 = c2_session
    ∧ (rollback_session (rollback_session c2_fs c2_session).1
        c2_session).2.2 = false := by
  have h := c2_rollback_amended c2_fs c2_session rfl
    (by decide)
    (fun fi hfi => by
      simp only [c2_session, List.mem_singleton] at hfi
      subst hfi
      exact ⟨c2_dst, rfl, 5, by decide⟩)
    (by decide) (by decide)
    (fun fi hfi fj hfj d hd => by
      simp only [c2_session, List.mem_singleton] at hfi hfj
      subst hfi
      subst hfj
      have hdc : c2_dst = d := Option.some.inj hd
      subst hdc
      decide)
  exact ⟨h.2.2.1, h.2.2.2.2 (by decide)⟩

